import Mathlib

/-!
Shallow embedding of the recurring-transaction materialization engine of the
Spendwizer repository (`processRecurringExpenses` in `src/App.tsx`, lines
82–126, together with the data model of `src/types.ts` and the storage
adapter of `src/services/storageService.ts`).

Modelling conventions:

* Calendar dates: a `YYYY-MM-DD` string corresponds bijectively to the number
  of days since 1970-01-01 (the civil day number).  We model dates as that
  `Int`; `civil y m d` computes the day number of a proleptic-Gregorian
  calendar date so that concrete dates of the spec can be written down.
  `date-fns`'s `addDays` is `(· + n)` on day numbers.
* Time: `today = new Date()` is an instant within some calendar day; the
  engine only compares it to date-valued cursors via
  `isBefore(cursor, today) || isToday(cursor)`, which at day granularity is
  exactly `cursor ≤ todayDay` (assuming a timezone-consistent environment so
  that parsing, formatting and `isToday` agree on the calendar day).  We pass
  the day number `today` directly.
* `uuidv4()` produces a fresh unique identifier per generated instance; we
  model the id supply as a counter threaded through the computation, so each
  instance receives a distinct `Nat` id.  `Date.now()` is modelled by a
  `now : Int` parameter copied into `createdAt`.
* `rule.nextDueDate` is a string fed to `new Date(...)`; an unparseable
  string yields an Invalid Date (NaN), for which both `isBefore` and
  `isToday` return `false`.  We model the parsed value as `Option Int`:
  `none` is an unparseable string, `some d` a valid date with day number `d`.
* The `localStorage`-backed store and the toast notification are modelled
  explicitly in `processRecurringExpenses`'s result: `savedRules = some rs`
  records a `storageService.saveRecurringRules rs` call, `toast` records the
  `showToastMessage` call.
-/

/-- `type TransactionType = 'income' | 'expense'` (src/types.ts). -/
inductive TransactionType where
  | income
  | expense
deriving DecidableEq, Repr

/-- `type Category = ...` (src/types.ts): the 13 literal category strings. -/
inductive Category where
  | Food | Transport | Shopping | Bills | Entertainment | Health
  | Education | Other | Salary | Business | Gift | Investment | Refund
deriving DecidableEq, Repr

/-- `type PaymentMode = 'Cash' | 'UPI' | 'Card' | 'Bank' | 'Other'` (src/types.ts). -/
inductive PaymentMode where
  | Cash | UPI | Card | Bank | Other
deriving DecidableEq, Repr

/-- `type Frequency = 'daily' | 'weekly' | 'monthly' | 'yearly'` (src/types.ts). -/
inductive Frequency where
  | daily | weekly | monthly | yearly
deriving DecidableEq, Repr

/-- `interface Expense` (src/types.ts).  `id` is a uuid, modelled as a `Nat`
drawn from the fresh-id counter; `date` is the day number of the
`YYYY-MM-DD` string; `createdAt` is the `Date.now()` timestamp. -/
structure Expense where
  id : Nat
  amount : Int
  category : Category
  paymentMode : PaymentMode
  date : Int
  note : Option String
  createdAt : Int
  type : TransactionType
deriving DecidableEq, Repr

/-- `Omit<Expense, 'id' | 'date' | 'createdAt'>`: the payload stored in
`RecurringRule.expenseTemplate` (src/types.ts). -/
structure ExpenseTemplate where
  amount : Int
  category : Category
  paymentMode : PaymentMode
  note : Option String
  type : TransactionType
deriving DecidableEq, Repr

/-- `interface RecurringRule` (src/types.ts).  `nextDueDate` holds the result
of parsing the stored string with `new Date(...)`: `none` for an unparseable
string, `some d` for the valid date with day number `d`. -/
structure RecurringRule where
  id : String
  frequency : Frequency
  nextDueDate : Option Int
  expenseTemplate : ExpenseTemplate
  active : Bool
  lastRun : Option Int
deriving DecidableEq, Repr

/-- Day number since 1970-01-01 of the Gregorian calendar date `y-m-d`
(Howard Hinnant's `days_from_civil` algorithm), used to write the spec's
concrete `YYYY-MM-DD` dates as day numbers. -/
def civil (y m d : Int) : Int :=
  let y' := if m ≤ 2 then y - 1 else y
  let era := (if 0 ≤ y' then y' else y' - 399) / 400
  let yoe := y' - era * 400
  let mp := (m + 9) % 12
  let doy := (153 * mp + 2) / 5 + d - 1
  let doe := yoe * 365 + yoe / 4 - yoe / 100 + doy
  era * 146097 + doe - 719468

/-- `addDays(date, n)` from date-fns, on day numbers. -/
def addDays (d n : Int) : Int := d + n

/-- The frequency dispatch of src/App.tsx lines 106–109:
`if (rule.frequency === 'daily') nextDate = addDays(nextDate, 1);` … -/
def advance (f : Frequency) (d : Int) : Int :=
  match f with
  | .daily => addDays d 1
  | .weekly => addDays d 7
  | .monthly => addDays d 30
  | .yearly => addDays d 365

/-- The per-rule `while` loop of src/App.tsx lines 94–110:

```
while (isBefore(nextDate, today) || isToday(nextDate)) {
  if (!rule.active) break;
  ruleUpdates.push({ ...rule.expenseTemplate, id: uuidv4(),
    date: format(nextDate, 'yyyy-MM-dd'), createdAt: Date.now(),
    type: rule.expenseTemplate.type || 'expense' });
  // advance nextDate by rule.frequency
}
```

Returns the generated instances (`ruleUpdates`), the final cursor
(`nextDate`) and the next fresh id.  The loop condition is `cursor ≤ today`
at day granularity; `type || 'expense'` is the identity on the (always
present, by the declared `Omit` type) template `type`. -/
def genLoop (rule : RecurringRule) (today now : Int) (cursor : Int) (nextId : Nat) :
    List Expense × Int × Nat :=
  if h : cursor ≤ today then
    if rule.active then
      let e : Expense :=
        { id := nextId
          amount := rule.expenseTemplate.amount
          category := rule.expenseTemplate.category
          paymentMode := rule.expenseTemplate.paymentMode
          date := cursor
          note := rule.expenseTemplate.note
          createdAt := now
          type := rule.expenseTemplate.type }
      let r := genLoop rule today now (advance rule.frequency cursor) (nextId + 1)
      (e :: r.1, r.2)
    else ([], cursor, nextId)
  else ([], cursor, nextId)
termination_by (today + 1 - cursor).toNat
decreasing_by
  cases rule.frequency <;> simp [advance, addDays] <;> omega

/-- The per-rule body of the `updatedRules.map` of src/App.tsx lines 89–118:
parse `nextDueDate`, run the loop, and if at least one instance was produced
return the rule with `nextDueDate` set to the final cursor and `lastRun` set
to today, otherwise return the rule unchanged.  An unparseable `nextDueDate`
(`none`) makes both `isBefore` and `isToday` false, so the loop body never
runs and the rule comes back unchanged. -/
def processRule (rule : RecurringRule) (today now : Int) (nextId : Nat) :
    List Expense × RecurringRule × Nat :=
  match rule.nextDueDate with
  | none => ([], rule, nextId)
  | some d =>
    let r := genLoop rule today now d nextId
    if r.1 = [] then ([], rule, nextId)
    else (r.1, { rule with nextDueDate := some r.2.1, lastRun := some today }, r.2.2)

/-- The `updatedRules.map` together with the
`newExpenses = [...newExpenses, ...ruleUpdates]` accumulation of
src/App.tsx lines 85–118: instances are collected in rule-iteration order,
chronological within each rule. -/
def processRules (rules : List RecurringRule) (today now : Int) (nextId : Nat) :
    List Expense × List RecurringRule × Nat :=
  match rules with
  | [] => ([], [], nextId)
  | r :: rest =>
    let p := processRule r today now nextId
    let q := processRules rest today now p.2.2
    (p.1 ++ q.1, p.2.1 :: q.2.1, q.2.2)

/-- The observable outcome of one `processRecurringExpenses` call:
the returned expense list, the `storageService.saveRecurringRules` call
(`none` = not called) and the `showToastMessage` call (`none` = not called). -/
structure EngineRun where
  expenses : List Expense
  savedRules : Option (List RecurringRule)
  toast : Option String
deriving DecidableEq, Repr

/-- `processRecurringExpenses` (src/App.tsx lines 82–126).  `storedRules` is
what `storageService.getRecurringRules()` returns.  `hasUpdates` is set in the
source exactly when some rule produced a non-empty `ruleUpdates`, i.e. exactly
when the accumulated `newExpenses` list is non-empty.  When it is set, the
function itself saves the updated rules, fires the toast
`` `${newExpenses.length} recurring expenses added` `` and returns the new
expenses prepended to `currentExpenses`; otherwise it returns
`currentExpenses` and performs neither call. -/
def processRecurringExpenses (currentExpenses : List Expense)
    (storedRules : List RecurringRule) (today now : Int) (nextId : Nat) : EngineRun :=
  let p := processRules storedRules today now nextId
  if p.1 = [] then
    { expenses := currentExpenses, savedRules := none, toast := none }
  else
    { expenses := p.1 ++ currentExpenses
      savedRules := some p.2.1
      toast := some (toString p.1.length ++ " recurring expenses added") }

/-!
Runtime-faithful view of the loop for data that escapes the TypeScript types.

`storageService.getRecurringRules` is `JSON.parse` with no validation, so at
runtime `rule.frequency` is an arbitrary string.  Lines 106–109 compare it
against the four known tags; a string matching none of them leaves `nextDate`
unchanged.  `genLoopFuel` is the same `while` loop over a string tag, indexed
by fuel: `some (count, finalCursor)` if the loop finishes within `fuel`
iterations, `none` otherwise.
-/

/-- Lines 106–109 over the runtime string tag: an unrecognised tag advances
the cursor by nothing. -/
def advanceRaw (tag : String) (d : Int) : Int :=
  if tag = "daily" then addDays d 1
  else if tag = "weekly" then addDays d 7
  else if tag = "monthly" then addDays d 30
  else if tag = "yearly" then addDays d 365
  else d

/-- Fuel-indexed form of the `while` loop of lines 94–110 with the runtime
string frequency tag: returns `some (generatedCount, finalCursor)` when the
loop terminates within `fuel` iterations, `none` when it does not. -/
def genLoopFuel (active : Bool) (tag : String) (today : Int) :
    Nat → Int → Option (Nat × Int)
  | 0, _ => none
  | fuel + 1, cursor =>
    if cursor ≤ today then
      if active then
        match genLoopFuel active tag today fuel (advanceRaw tag cursor) with
        | some (n, f) => some (n + 1, f)
        | none => none
      else some (0, cursor)
    else some (0, cursor)

/-- The loop of lines 94–110 terminates on the given rule data: some finite
fuel suffices. -/
def loopTerminates (active : Bool) (tag : String) (today cursor : Int) : Prop :=
  ∃ fuel, (genLoopFuel active tag today fuel cursor).isSome

/-- Concrete rule of the spec's concrete daily scenario (§8): daily, next due
2024-06-01, active, template `{amount 10, Food, expense, Cash}`. -/
def ruleDaily : RecurringRule :=
  { id := "r-daily"
    frequency := .daily
    nextDueDate := some (civil 2024 6 1)
    expenseTemplate :=
      { amount := 10, category := .Food, paymentMode := .Cash,
        note := none, type := .expense }
    active := true
    lastRun := none }

/-- Concrete rule of the spec's monthly-drift example (§8): monthly, next due
2024-01-31, active. -/
def ruleMonthly : RecurringRule :=
  { id := "r-monthly"
    frequency := .monthly
    nextDueDate := some (civil 2024 1 31)
    expenseTemplate :=
      { amount := 500, category := .Bills, paymentMode := .UPI,
        note := some "rent", type := .expense }
    active := true
    lastRun := none }

/-- A small concrete rule, due on day 0, used to instantiate hypotheses of the
general theorems at checkable inputs. -/
def ruleSmall : RecurringRule :=
  { id := "r-small"
    frequency := .weekly
    nextDueDate := some 0
    expenseTemplate :=
      { amount := 7, category := .Transport, paymentMode := .Card,
        note := some "bus", type := .expense }
    active := true
    lastRun := none }

/-- `ruleSmall` with `active := false`. -/
def ruleSmallInactive : RecurringRule :=
  { ruleSmall with active := false }

/-- `ruleSmall` with an unparseable `nextDueDate` string. -/
def ruleSmallBadDate : RecurringRule :=
  { ruleSmall with nextDueDate := none }

/-- The instance `processRule ruleSmall 0 5 0` generates (weekly rule due on
day 0, reference day 0, `Date.now()` = 5, first fresh id 0). -/
def expenseSmall : Expense :=
  { id := 0, amount := 7, category := .Transport, paymentMode := .Card,
    date := 0, note := some "bus", createdAt := 5, type := .expense }

/-!  ### Helper lemmas about the per-rule loop  -/

/-- An inactive rule: the loop body `break`s immediately, so nothing is
generated and the cursor and id counter are untouched. -/
theorem genLoop_inactive (rule : RecurringRule) (today now cursor : Int) (nextId : Nat)
    (h : rule.active = false) :
    genLoop rule today now cursor nextId = ([], cursor, nextId) := by
  rw [genLoop.eq_def]
  simp [h]

/-- A cursor already strictly after today: the loop never runs. -/
theorem genLoop_not_due (rule : RecurringRule) (today now cursor : Int) (nextId : Nat)
    (h : today < cursor) :
    genLoop rule today now cursor nextId = ([], cursor, nextId) := by
  rw [genLoop.eq_def]
  simp [not_le.mpr h]

/-- Each frequency advances the cursor by at least one day. -/
theorem advance_gt (f : Frequency) (d : Int) : d < advance f d := by
  cases f <;> simp [advance, addDays]

/-- For an active rule the loop exits with a cursor strictly after today. -/
theorem genLoop_final_gt (rule : RecurringRule) (today now : Int) :
    ∀ (cursor : Int) (nextId : Nat), rule.active = true →
      today < (genLoop rule today now cursor nextId).2.1 := by
  intro cursor nextId
  induction cursor, nextId using genLoop.induct rule today now with
  | case1 cursor nextId hle hact ih =>
    intro _
    rw [genLoop.eq_def]
    simp [hle, hact]
    exact ih hact
  | case2 cursor nextId hle hact =>
    intro h
    exact absurd h hact
  | case3 cursor nextId hgt =>
    intro _
    rw [genLoop.eq_def]
    simp [hgt]
    omega

/-- The loop generates nothing exactly when the rule is inactive or the
cursor is already strictly after today. -/
theorem genLoop_empty_iff (rule : RecurringRule) (today now cursor : Int) (nextId : Nat) :
    (genLoop rule today now cursor nextId).1 = [] ↔
      (rule.active = false ∨ today < cursor) := by
  rw [genLoop.eq_def]
  by_cases hle : cursor ≤ today <;> by_cases hact : rule.active = true <;>
    simp [hle, hact] <;> omega

/-- Every generated instance: its date lies between the entry cursor and
today, its id is at least the entry counter value, its `createdAt` is the
shared timestamp, and its payload fields are copied verbatim from
`rule.expenseTemplate`. -/
theorem genLoop_mem (rule : RecurringRule) (today now : Int) :
    ∀ (cursor : Int) (nextId : Nat),
      ∀ e ∈ (genLoop rule today now cursor nextId).1,
        cursor ≤ e.date ∧ e.date ≤ today ∧ nextId ≤ e.id ∧ e.createdAt = now ∧
        e.amount = rule.expenseTemplate.amount ∧
        e.category = rule.expenseTemplate.category ∧
        e.paymentMode = rule.expenseTemplate.paymentMode ∧
        e.note = rule.expenseTemplate.note ∧
        e.type = rule.expenseTemplate.type := by
  intro cursor nextId
  induction cursor, nextId using genLoop.induct rule today now with
  | case1 cursor nextId hle hact ih =>
    intro e he
    rw [genLoop.eq_def] at he
    simp [hle, hact] at he
    rcases he with he | he
    · subst he
      refine ⟨le_refl _, hle, le_refl _, rfl, rfl, rfl, rfl, rfl, rfl⟩
    · have h := ih e he
      have hadv := advance_gt rule.frequency cursor
      exact ⟨by omega, h.2.1, by omega, h.2.2.2⟩
  | case2 cursor nextId hle hact =>
    intro e he
    rw [genLoop.eq_def] at he
    simp [hle, hact] at he
  | case3 cursor nextId hgt =>
    intro e he
    rw [genLoop.eq_def] at he
    simp [hgt] at he

/-- Within one rule's batch, dates and ids are strictly increasing along the
generated list: distinct instances have distinct dates and distinct ids. -/
theorem genLoop_pairwise (rule : RecurringRule) (today now : Int) :
    ∀ (cursor : Int) (nextId : Nat),
      ((genLoop rule today now cursor nextId).1).Pairwise
        (fun a b => a.date < b.date ∧ a.id < b.id) := by
  intro cursor nextId
  induction cursor, nextId using genLoop.induct rule today now with
  | case1 cursor nextId hle hact ih =>
    rw [genLoop.eq_def]
    simp only [hle, hact, dite_true, if_true, dif_pos]
    refine List.Pairwise.cons ?_ ih
    intro b hb
    have h := genLoop_mem rule today now (advance rule.frequency cursor) (nextId + 1) b hb
    have hadv := advance_gt rule.frequency cursor
    constructor
    · simp only []
      omega
    · simp only []
      omega
  | case2 cursor nextId hle hact =>
    rw [genLoop.eq_def]
    simp [hle, hact]
  | case3 cursor nextId hgt =>
    rw [genLoop.eq_def]
    simp [hgt]

/-- For an active, due rule the batch starts with an instance dated exactly
at the entry cursor. -/
theorem genLoop_head (rule : RecurringRule) (today now cursor : Int) (nextId : Nat)
    (hact : rule.active = true) (hle : cursor ≤ today) :
    ∃ e rest, (genLoop rule today now cursor nextId).1 = e :: rest ∧
      e.date = cursor ∧ e.id = nextId := by
  rw [genLoop.eq_def]
  simp only [hle, hact, dite_true, if_true, dif_pos]
  exact ⟨_, _, rfl, rfl, rfl⟩

/-!  ### Helper lemmas about `processRule` and `processRules`  -/

/-- A second `processRule` run on the rule returned by a first run, against
the same reference day, generates nothing and leaves the rule unchanged. -/
theorem processRule_idem (rule : RecurringRule) (today now now' : Int) (i i' : Nat) :
    processRule (processRule rule today now i).2.1 today now' i' =
      ([], (processRule rule today now i).2.1, i') := by
  rcases hd : rule.nextDueDate with _ | d
  · simp [processRule, hd]
  · by_cases hg : (genLoop rule today now d i).1 = []
    · have hskip : processRule rule today now i = ([], rule, i) := by
        simp [processRule, hd, hg]
      rw [hskip]
      have h := (genLoop_empty_iff rule today now d i).mp hg
      have hg' : (genLoop rule today now' d i').1 = [] :=
        (genLoop_empty_iff rule today now' d i').mpr h
      simp [processRule, hd, hg']
    · have hact : rule.active = true := by
        rcases (not_or.mp (mt (genLoop_empty_iff rule today now d i).mpr hg)).1 with h
        simpa using h
      have hupd : (processRule rule today now i).2.1 =
          { rule with nextDueDate := some (genLoop rule today now d i).2.1,
                      lastRun := some today } := by
        simp [processRule, hd, hg]
      rw [hupd]
      have hfin : today < (genLoop rule today now d i).2.1 :=
        genLoop_final_gt rule today now d i hact
      have hskip2 := genLoop_not_due
        ({ rule with nextDueDate := some (genLoop rule today now d i).2.1,
                     lastRun := some today }) today now'
        (genLoop rule today now d i).2.1 i' hfin
      simp [processRule, hskip2]

/-- A second `processRules` pass over the updated rules of a first pass, with
the same reference day, generates nothing and returns the rules unchanged. -/
theorem processRules_idem (rules : List RecurringRule) (today now now' : Int) :
    ∀ (i i' : Nat),
      processRules (processRules rules today now i).2.1 today now' i' =
        ([], (processRules rules today now i).2.1, i') := by
  induction rules with
  | nil => intro i i'; simp [processRules]
  | cons r rest ih =>
    intro i i'
    simp only [processRules]
    rw [processRule_idem r today now now' i i']
    simp only [processRules]
    rw [ih (processRule r today now i).2.2 i']
    simp

/-- `processRule` never adds, removes or renames: the returned rule keeps the
input rule's `id`, `frequency`, `active` flag and template. -/
theorem processRule_preserves (rule : RecurringRule) (today now : Int) (i : Nat) :
    (processRule rule today now i).2.1.id = rule.id ∧
    (processRule rule today now i).2.1.frequency = rule.frequency ∧
    (processRule rule today now i).2.1.active = rule.active ∧
    (processRule rule today now i).2.1.expenseTemplate = rule.expenseTemplate := by
  rcases hd : rule.nextDueDate with _ | d
  · simp [processRule, hd]
  · by_cases hg : (genLoop rule today now d i).1 = [] <;>
      simp [processRule, hd, hg]

/-- Pointwise version of rule-set preservation for the whole map. -/
theorem processRules_preserves (rules : List RecurringRule) (today now : Int) :
    ∀ i : Nat,
      List.Forall₂ (fun r r' => r'.id = r.id ∧ r'.frequency = r.frequency ∧
        r'.active = r.active ∧ r'.expenseTemplate = r.expenseTemplate)
        rules (processRules rules today now i).2.1 := by
  induction rules with
  | nil => intro i; simp [processRules]
  | cons r rest ih =>
    intro i
    simp only [processRules]
    exact List.Forall₂.cons (processRule_preserves r today now i) (ih _)

/-- On a rule whose runtime frequency tag matches none of the four known
values, the loop never advances its cursor, so with an active, due rule no
amount of fuel completes the loop. -/
theorem genLoopFuel_unknown_tag (fuel : Nat) :
    genLoopFuel true "fortnightly" 0 fuel 0 = none := by
  induction fuel with
  | zero => rfl
  | succ n ih =>
    have hadv : advanceRaw "fortnightly" (0 : Int) = 0 := by decide
    simp [genLoopFuel, hadv, ih]

/-!  ### The claims  -/

/-- Claim C1: Idempotence of materialization.  For every rule set, reference
day and id/timestamp supplies, running the engine a second time with the same
reference day on the updated rules of the first run generates zero new
instances, changes no rule, and at the `processRecurringExpenses` level
performs no store write and fires no notification. -/
theorem materialize_idempotent (rules : List RecurringRule)
    (currentExpenses : List Expense) (today now now' : Int) (i i' : Nat) :
    (processRules (processRules rules today now i).2.1 today now' i').1 = [] ∧
    (processRules (processRules rules today now i).2.1 today now' i').2.1 =
      (processRules rules today now i).2.1 ∧
    processRecurringExpenses currentExpenses
        (processRules rules today now i).2.1 today now' i' =
      { expenses := currentExpenses, savedRules := none, toast := none } := by
  have h := processRules_idem rules today now now' i i'
  refine ⟨by rw [h], by rw [h], ?_⟩
  simp [processRecurringExpenses, h]

/-- Claim C2 (counterexample): the spec's concrete daily scenario — rule due
2024-06-01 materialized at reference day 2024-06-03 — does NOT produce 2
instances dated 2024-06-01 and 2024-06-02 with `nextDueDate = 2024-06-03`:
the loop condition is due-or-overdue inclusive of today, so a third instance
dated 2024-06-03 is generated. -/
theorem concrete_daily_scenario_counterexample :
    ¬ ((processRule ruleDaily (civil 2024 6 3) 0 0).1.length = 2 ∧
       (processRule ruleDaily (civil 2024 6 3) 0 0).1.map (fun e => e.date) =
         [civil 2024 6 1, civil 2024 6 2] ∧
       (processRule ruleDaily (civil 2024 6 3) 0 0).2.1.nextDueDate =
         some (civil 2024 6 3)) := by
  intro h
  have h1 := h.1
  simp [processRule, ruleDaily, civil, genLoop, advance, addDays] at h1

/-- Claim C2 (amended): the concrete daily scenario produces exactly 3
instances, dated 2024-06-01, 2024-06-02 and 2024-06-03, each copying the
template's amount 10, category Food, payment mode Cash and type expense, and
the updated rule has `nextDueDate = 2024-06-04`. -/
theorem concrete_daily_scenario :
    (processRule ruleDaily (civil 2024 6 3) 0 0).1.length = 3 ∧
    (processRule ruleDaily (civil 2024 6 3) 0 0).1.map (fun e => e.date) =
      [civil 2024 6 1, civil 2024 6 2, civil 2024 6 3] ∧
    (processRule ruleDaily (civil 2024 6 3) 0 0).2.1.nextDueDate =
      some (civil 2024 6 4) ∧
    ∀ e ∈ (processRule ruleDaily (civil 2024 6 3) 0 0).1,
      e.amount = 10 ∧ e.category = Category.Food ∧
      e.paymentMode = PaymentMode.Cash ∧ e.type = TransactionType.expense := by
  refine ⟨?_, ?_, ?_, ?_⟩ <;>
    simp [processRule, ruleDaily, civil, genLoop, advance, addDays]

/-- Claim C3 (counterexample): a rule whose runtime frequency tag is not one
of daily/weekly/monthly/yearly is NOT skipped: when it is active and due, the
cursor is never advanced (lines 106–109 match nothing), so the `while` loop
of lines 94–110 never terminates — no finite fuel completes it. -/
theorem unknown_frequency_loop_diverges :
    ¬ loopTerminates true "fortnightly" 0 0 := by
  rintro ⟨fuel, hf⟩
  rw [genLoopFuel_unknown_tag fuel] at hf
  simp at hf

/-- Claim C3 (amended): a rule with an unparseable `nextDueDate` is skipped —
returned unchanged, zero instances, the id supply untouched — and the rest of
the rule list is processed exactly as it would be without it.  (A frequency
tag outside the four known values, by contrast, hangs the loop when the rule
is active and due.) -/
theorem malformed_date_rule_skipped (rule : RecurringRule)
    (rest : List RecurringRule) (today now : Int) (i : Nat)
    (h : rule.nextDueDate = none) :
    processRule rule today now i = ([], rule, i) ∧
    processRules (rule :: rest) today now i =
      ((processRules rest today now i).1,
       rule :: (processRules rest today now i).2.1,
       (processRules rest today now i).2.2) := by
  have h1 : processRule rule today now i = ([], rule, i) := by
    simp [processRule, h]
  refine ⟨h1, ?_⟩
  simp only [processRules, h1]
  simp

/-- Witness for C3's amended claim at a concrete malformed rule. -/
theorem malformed_date_rule_skipped_witness :
    processRule ruleSmallBadDate 0 5 0 = ([], ruleSmallBadDate, 0) ∧
    processRules [ruleSmallBadDate, ruleSmall] 0 5 0 =
      ((processRules [ruleSmall] 0 5 0).1,
       ruleSmallBadDate :: (processRules [ruleSmall] 0 5 0).2.1,
       (processRules [ruleSmall] 0 5 0).2.2) :=
  malformed_date_rule_skipped ruleSmallBadDate [ruleSmall] 0 5 0 rfl

/-- Claim C4 (counterexample): the engine is not externally pure — on a rule
set with one active, due rule, `processRecurringExpenses` itself calls
`storageService.saveRecurringRules` with the updated rules and fires the
toast notification. -/
theorem engine_not_pure_counterexample :
    (processRecurringExpenses [] [ruleSmall] 0 5 0).savedRules =
      some [{ ruleSmall with nextDueDate := some 7, lastRun := some 0 }] ∧
    (processRecurringExpenses [] [ruleSmall] 0 5 0).toast ≠ none := by
  constructor <;>
    simp [processRecurringExpenses, processRules, processRule, ruleSmall,
      genLoop, advance, addDays]

/-- Claim C4 (amended): in the explicit-state embedding the engine is a
deterministic function of the stored rules, the reference day and the
id/timestamp supplies, but it is the engine itself — not its caller — that
persists the updated rules and surfaces the count: when no instance is
generated it performs no store write and no notification and returns the
expense list unchanged; when at least one is generated it saves the updated
rules, fires the `"N recurring expenses added"` toast and prepends the batch. -/
theorem engine_effects (currentExpenses : List Expense)
    (rules : List RecurringRule) (today now : Int) (i : Nat) :
    ((processRules rules today now i).1 = [] →
      processRecurringExpenses currentExpenses rules today now i =
        { expenses := currentExpenses, savedRules := none, toast := none }) ∧
    ((processRules rules today now i).1 ≠ [] →
      processRecurringExpenses currentExpenses rules today now i =
        { expenses := (processRules rules today now i).1 ++ currentExpenses,
          savedRules := some (processRules rules today now i).2.1,
          toast := some (toString (processRules rules today now i).1.length ++
            " recurring expenses added") }) := by
  constructor <;> intro h <;> simp [processRecurringExpenses, h]

/-- Witness for C4's amended claim: a concrete run with an inactive rule
performs no store write and no notification. -/
theorem engine_effects_witness :
    processRecurringExpenses [] [ruleSmallInactive] 0 5 0 =
      { expenses := [], savedRules := none, toast := none } :=
  (engine_effects [] [ruleSmallInactive] 0 5 0).1
    (by simp [processRules, processRule, ruleSmallInactive, ruleSmall,
      genLoop, advance, addDays])

/-- Claim C5: due-or-overdue is inclusive of the reference date.  For every
active rule whose parsed `nextDueDate` is on or before today, some generated
instance is dated exactly at that due date (in particular a rule due today
generates an instance dated today), every generated instance is dated on or
before today, and the loop stops exactly when the cursor is strictly after
today: the updated `nextDueDate` is strictly after today. -/
theorem due_or_overdue_inclusive (rule : RecurringRule) (today now : Int)
    (i : Nat) (d : Int) (hact : rule.active = true)
    (hd : rule.nextDueDate = some d) (hdue : d ≤ today) :
    (∃ e ∈ (processRule rule today now i).1, e.date = d) ∧
    (∀ e ∈ (processRule rule today now i).1, e.date ≤ today) ∧
    (∃ f, (processRule rule today now i).2.1.nextDueDate = some f ∧
      today < f) := by
  have hne : (genLoop rule today now d i).1 ≠ [] := by
    simp [genLoop_empty_iff, hact]
    omega
  have hpr : processRule rule today now i =
      ((genLoop rule today now d i).1,
       { rule with nextDueDate := some (genLoop rule today now d i).2.1,
                   lastRun := some today },
       (genLoop rule today now d i).2.2) := by
    simp [processRule, hd, hne]
  obtain ⟨e, rest, hcons, hdate, _⟩ := genLoop_head rule today now d i hact hdue
  refine ⟨⟨e, ?_, hdate⟩, ?_, ?_⟩
  · rw [hpr]
    simp [hcons]
  · intro e' he'
    rw [hpr] at he'
    exact (genLoop_mem rule today now d i e' he').2.1
  · exact ⟨(genLoop rule today now d i).2.1, by rw [hpr],
      genLoop_final_gt rule today now d i hact⟩

/-- Witness for C5 at a concrete rule due exactly on the reference day. -/
theorem due_or_overdue_inclusive_witness :
    (∃ e ∈ (processRule ruleSmall 0 5 0).1, e.date = 0) ∧
    (∀ e ∈ (processRule ruleSmall 0 5 0).1, e.date ≤ 0) ∧
    (∃ f, (processRule ruleSmall 0 5 0).2.1.nextDueDate = some f ∧ 0 < f) :=
  due_or_overdue_inclusive ruleSmall 0 5 0 0 rfl rfl (le_refl 0)

/-- Claim C6: fixed-offset date arithmetic and monthly drift.  Monthly
advancement adds exactly 30 days and yearly exactly 365 (not
calendar-aware); the monthly rule due 2024-01-31 materialized at 2024-03-01
produces instances dated exactly 2024-01-31 and 2024-03-01, and none dated
2024-02-29. -/
theorem fixed_offset_monthly_drift :
    (∀ d : Int, advance Frequency.monthly d = d + 30) ∧
    (∀ d : Int, advance Frequency.yearly d = d + 365) ∧
    (processRule ruleMonthly (civil 2024 3 1) 0 0).1.map (fun e => e.date) =
      [civil 2024 1 31, civil 2024 3 1] ∧
    (∀ e ∈ (processRule ruleMonthly (civil 2024 3 1) 0 0).1,
      e.date ≠ civil 2024 2 29) := by
  refine ⟨fun d => rfl, fun d => rfl, ?_, ?_⟩ <;>
    simp [processRule, ruleMonthly, civil, genLoop, advance, addDays]

/-- Claim C7: inactive rules are frozen.  A rule with `active = false`
generates zero instances and is returned with every field unchanged,
regardless of how far in the past its `nextDueDate` lies; the id supply is
untouched. -/
theorem inactive_rule_frozen (rule : RecurringRule) (today now : Int)
    (i : Nat) (h : rule.active = false) :
    processRule rule today now i = ([], rule, i) := by
  rcases hd : rule.nextDueDate with _ | d
  · simp [processRule, hd]
  · simp [processRule, hd, genLoop_inactive rule today now d i h]

/-- Witness for C7 at a concrete inactive rule with a long-overdue date. -/
theorem inactive_rule_frozen_witness :
    ruleSmallInactive.active = false ∧
    processRule ruleSmallInactive 100 0 0 = ([], ruleSmallInactive, 0) :=
  ⟨rfl, inactive_rule_frozen ruleSmallInactive 100 0 0 rfl⟩

/-- Claim C8: template fidelity.  Every instance generated from a rule copies
the template's amount, category, payment mode, note and type verbatim, and
within one rule's batch distinct instances differ in id and date. -/
theorem template_fidelity (rule : RecurringRule) (today now : Int) (i : Nat)
    (e : Expense) (he : e ∈ (processRule rule today now i).1) :
    (e.amount = rule.expenseTemplate.amount ∧
     e.category = rule.expenseTemplate.category ∧
     e.paymentMode = rule.expenseTemplate.paymentMode ∧
     e.note = rule.expenseTemplate.note ∧
     e.type = rule.expenseTemplate.type) ∧
    ((processRule rule today now i).1.Pairwise
      fun a b => a.id ≠ b.id ∧ a.date ≠ b.date) := by
  rcases hd : rule.nextDueDate with _ | d
  · simp [processRule, hd] at he
  · by_cases hg : (genLoop rule today now d i).1 = []
    · simp [processRule, hd, hg] at he
    · have hfst : (processRule rule today now i).1 =
          (genLoop rule today now d i).1 := by
        simp [processRule, hd, hg]
      rw [hfst] at he ⊢
      obtain ⟨-, -, -, -, h5, h6, h7, h8, h9⟩ :=
        genLoop_mem rule today now d i e he
      refine ⟨⟨h5, h6, h7, h8, h9⟩, ?_⟩
      exact (genLoop_pairwise rule today now d i).imp
        (fun h => ⟨Nat.ne_of_lt h.2, ne_of_lt h.1⟩)

/-- Witness for C8 at the concrete instance generated by `ruleSmall`. -/
theorem template_fidelity_witness :
    (expenseSmall.amount = ruleSmall.expenseTemplate.amount ∧
     expenseSmall.category = ruleSmall.expenseTemplate.category ∧
     expenseSmall.paymentMode = ruleSmall.expenseTemplate.paymentMode ∧
     expenseSmall.note = ruleSmall.expenseTemplate.note ∧
     expenseSmall.type = ruleSmall.expenseTemplate.type) ∧
    ((processRule ruleSmall 0 5 0).1.Pairwise
      fun a b => a.id ≠ b.id ∧ a.date ≠ b.date) :=
  template_fidelity ruleSmall 0 5 0 expenseSmall
    (by simp [processRule, ruleSmall, genLoop, advance, addDays, expenseSmall])

/-- Claim C9: cursor invariant preserved by materialization.  A rule that
generates at least one instance comes back with `nextDueDate` equal to the
final cursor — a date strictly after today — and `lastRun = today`, and every
generated instance is dated at or after the old `nextDueDate` and strictly
before the new one; a rule that generates zero instances is returned
unchanged, so `nextDueDate` remains a date for which no instance was
created. -/
theorem cursor_invariant (rule : RecurringRule) (today now : Int) (i : Nat) :
    ((processRule rule today now i).1 ≠ [] →
      ∃ d f, rule.nextDueDate = some d ∧
        (processRule rule today now i).2.1.nextDueDate = some f ∧
        today < f ∧
        (processRule rule today now i).2.1.lastRun = some today ∧
        ∀ e ∈ (processRule rule today now i).1, d ≤ e.date ∧ e.date < f) ∧
    ((processRule rule today now i).1 = [] →
      processRule rule today now i = ([], rule, i)) := by
  rcases hd : rule.nextDueDate with _ | d
  · constructor
    · intro h
      simp [processRule, hd] at h
    · intro _
      simp [processRule, hd]
  · by_cases hg : (genLoop rule today now d i).1 = []
    · constructor
      · intro h
        simp [processRule, hd, hg] at h
      · intro _
        simp [processRule, hd, hg]
    · have hact : rule.active = true := by
        rcases (not_or.mp (mt (genLoop_empty_iff rule today now d i).mpr hg)).1
          with h
        simpa using h
      have hpr : processRule rule today now i =
          ((genLoop rule today now d i).1,
           { rule with nextDueDate := some (genLoop rule today now d i).2.1,
                       lastRun := some today },
           (genLoop rule today now d i).2.2) := by
        simp [processRule, hd, hg]
      have hfin : today < (genLoop rule today now d i).2.1 :=
        genLoop_final_gt rule today now d i hact
      constructor
      · intro _
        refine ⟨d, (genLoop rule today now d i).2.1, rfl, by rw [hpr], hfin,
          by rw [hpr], ?_⟩
        intro e he
        rw [hpr] at he
        have hm := genLoop_mem rule today now d i e he
        exact ⟨hm.1, by omega⟩
      · intro h
        rw [hpr] at h
        exact absurd h hg

/-- Witness for C9 at a concrete rule that generates one instance. -/
theorem cursor_invariant_witness :
    ∃ d f, ruleSmall.nextDueDate = some d ∧
      (processRule ruleSmall 0 5 0).2.1.nextDueDate = some f ∧
      (0 : Int) < f ∧
      (processRule ruleSmall 0 5 0).2.1.lastRun = some 0 ∧
      ∀ e ∈ (processRule ruleSmall 0 5 0).1, d ≤ e.date ∧ e.date < f :=
  (cursor_invariant ruleSmall 0 5 0).1
    (by simp [processRule, ruleSmall, genLoop, advance, addDays])

/-- Claim C10: rule-set preservation.  The updated rule list has the same
length and order as the input, and each output rule keeps its input rule's
id, frequency, active flag and template — only `nextDueDate` and `lastRun`
may change. -/
theorem rule_set_preserved (rules : List RecurringRule) (today now : Int)
    (i : Nat) :
    (processRules rules today now i).2.1.length = rules.length ∧
    List.Forall₂ (fun r r' => r'.id = r.id ∧ r'.frequency = r.frequency ∧
      r'.active = r.active ∧ r'.expenseTemplate = r.expenseTemplate)
      rules (processRules rules today now i).2.1 :=
  ⟨(List.Forall₂.length_eq (processRules_preserves rules today now i)).symm,
   processRules_preserves rules today now i⟩
